import Mathlib

/-!
Verification of the tile-map editor core (run_tile_editor.py).

The Python source is shallowly embedded: every definition below mirrors one
method of the source file.  Python lists become `List ℤ`, Python floats that
only ever hold exact dyadic values (widget scale, pointer coordinates) become
`ℚ`, Python integers become `ℤ` or `ℕ`, and a raised exception becomes
`Option`/`Except`.  Field-by-field mutation of a Qt object becomes explicit
state passing on a record of the mutable fields.
-/

/-- Embeds class `UndoRedo`: a list of snapshots (`store`) plus the index of
the current one.  `copy.deepcopy` is value copying, which is implicit for
immutable Lean values. -/
structure UndoRedo (α : Type) where
  index : ℕ
  store : List α
  deriving Repr, DecidableEq

/-- Embeds `UndoRedo.__init__(init_data)`: a one-entry store at index 0. -/
def UndoRedo.init {α : Type} (init_data : α) : UndoRedo α :=
  ⟨0, [init_data]⟩

/-- Embeds the property `UndoRedo.data`, i.e. `self.store[self.index]`.
The default is never reached when the invariant `index < store.length`
holds. -/
def UndoRedo.data {α : Type} [Inhabited α] (u : UndoRedo α) : α :=
  u.store.getD u.index default

/-- Embeds `UndoRedo.create_copy`: pop entries above the index (the while
loop truncates the store to `index + 1` entries), append a deep copy of the
current entry, and advance the index. -/
def UndoRedo.create_copy {α : Type} [Inhabited α] (u : UndoRedo α) : UndoRedo α :=
  ⟨u.index + 1, u.store.take (u.index + 1) ++ [u.store.getD u.index default]⟩

/-- Embeds `UndoRedo.undo`: step the index back unless already at 0. -/
def UndoRedo.undo {α : Type} (u : UndoRedo α) : UndoRedo α :=
  if 0 < u.index then ⟨u.index - 1, u.store⟩ else u

/-- Embeds `UndoRedo.redo`: step the index forward unless at the newest
entry. -/
def UndoRedo.redo {α : Type} (u : UndoRedo α) : UndoRedo α :=
  if u.index + 1 < u.store.length then ⟨u.index + 1, u.store⟩ else u

/-- Embeds an in-place mutation of the current snapshot through the `data`
reference (as `set_tile` does with `self.data_store.data[...] = value`):
the store entry at the current index is replaced, nothing else moves. -/
def UndoRedo.setData {α : Type} (u : UndoRedo α) (v : α) : UndoRedo α :=
  ⟨u.index, u.store.set u.index v⟩

/-- CPython sequence-index resolution for a list of length `n`: a negative
index has `n` added to it, then the result must lie in `[0, n)` or an
`IndexError` is raised (`none`). -/
def pyIndex (n : ℕ) (i : ℤ) : Option ℕ :=
  let j : ℤ := if i < 0 then i + n else i
  if 0 ≤ j ∧ j < (n : ℤ) then some j.toNat else none

/-- Python `l[i]` on a list of integers. -/
def pyGet (l : List ℤ) (i : ℤ) : Option ℤ :=
  (pyIndex l.length i).map fun j => l.getD j 0

/-- Python `l[i] = v` on a list of integers; returns the updated list, or
`none` for an `IndexError`. -/
def pySet (l : List ℤ) (i : ℤ) (v : ℤ) : Option (List ℤ) :=
  (pyIndex l.length i).map fun j => l.set j v

/-- Embeds `TileEd.get_tile(x, y)`: `self.data_store.data[(y * self.size[0]) + x]`
with Python list-index semantics (`cols` is `self.size[0]`). -/
def TileEd.get_tile (cols : ℤ) (data : List ℤ) (x y : ℤ) : Option ℤ :=
  pyGet data (y * cols + x)

/-- Embeds `TileEd.set_tile(x, y, value)`:
`self.data_store.data[(y * self.size[0]) + x] = value`. -/
def TileEd.set_tile (cols : ℤ) (data : List ℤ) (x y v : ℤ) : Option (List ℤ) :=
  pySet data (y * cols + x) v

/-- Embeds `TileSelector.get_tile_map_coords(tile)` (and the identical
per-tile formula in `TileEd.reset`): `x = (tile % tilemap_size[0]) * tile_w`,
`y = (tile // tilemap_size[1]) * tile_h`, where `tilemap_size = (cols, rows)`
is the atlas size in tiles.  The source computes with floats; when the atlas
dimensions are exact multiples of the tile size (the documented integrity
invariant) every intermediate value is integral, so `ℕ` arithmetic is
exact. -/
def TileSelector.get_tile_map_coords (cols rows tile_w tile_h tile : ℕ) : ℕ × ℕ :=
  (tile % cols * tile_w, tile / rows * tile_h)

/-- Embeds `TileSelector.get_tile(x, y)`:
`tiles_horiz = pixmap.width / tile_w; int(y * tiles_horiz + x)`. -/
def TileSelector.get_tile (atlas_w tile_w x y : ℕ) : ℕ :=
  y * (atlas_w / tile_w) + x

/-- The specification formula for `tileToAtlasPosition` (section 4.1 of the
spec), written from the words of the spec for comparison with the source
function `TileSelector.get_tile_map_coords`: both coordinates are derived
from `tilemapColumns`. -/
def tileToAtlasPosition_spec (tilemapColumns tile_w tile_h tile : ℕ) : ℕ × ℕ :=
  (tile % tilemapColumns * tile_w, tile / tilemapColumns * tile_h)

/-- The round trip of claim C2 composed from the source functions: map a
tile index to its atlas pixel position, then map that pixel position back to
a tile index via the atlas-pixel-to-cell division and
`TileSelector.get_tile`, with `atlas_w = cols * tile_w`. -/
def atlas_round_trip (cols rows tile_w tile_h t : ℕ) : ℕ :=
  let p := TileSelector.get_tile_map_coords cols rows tile_w tile_h t
  TileSelector.get_tile (cols * tile_w) tile_w (p.1 / tile_w) (p.2 / tile_h)

/-- Embeds the pixel-to-cell expression of `TileEd.mousePressEvent`,
`TileEd.mouseMoveEvent` and `TileSelector.mousePressEvent`:
`int(localPos // tile_size // scale)` in each axis — a floor division by the
tile size followed by a second floor division by the scale. -/
def screen_point_to_cell (sx sy tile_w tile_h scale : ℚ) : ℤ × ℤ :=
  (⌊(⌊sx / tile_w⌋ : ℚ) / scale⌋, ⌊(⌊sy / tile_h⌋ : ℚ) / scale⌋)

/-- The JSON object produced by `TileEd.encode_to_JSON` / consumed by
`TileEd.decode_from_JSON`; an absent key is `none`. -/
structure JsonTileData where
  data : Option (List ℤ)
  deriving Repr, DecidableEq

/-- The JSON object produced by `TileSelector.encode_to_JSON`. -/
structure JsonTileSel where
  scale : Option ℚ
  deriving Repr, DecidableEq

/-- The top-level JSON object of `MainWindow.encode_to_JSON`; each field
`none` models that key being absent from the loaded file. -/
structure JsonDoc where
  width : Option ℤ
  height : Option ℤ
  tile_width : Option ℤ
  tile_height : Option ℤ
  selected_tile : Option ℤ
  tile_image : Option String
  tile_data : Option JsonTileData
  tile_sel : Option JsonTileSel
  deriving Repr, DecidableEq

/-- The mutable document state of `MainWindow` together with the parts of
its `TileEd` and `TileSelector` children that the codec touches: grid size,
tile size, selected tile, atlas image reference, the undo store holding the
grid contents, and the selector scale. -/
structure MainState where
  size : ℤ × ℤ
  tile_size : ℤ × ℤ
  tile : ℤ
  tile_image : String
  dataStore : UndoRedo (List ℤ)
  scale : ℚ
  deriving Repr, DecidableEq

/-- Embeds `MainWindow.encode_to_JSON` (with the nested
`TileEd.encode_to_JSON` and `TileSelector.encode_to_JSON`): every key is
written, `tile_data.data` holds the current snapshot of the undo store. -/
def MainWindow.encode_to_JSON (st : MainState) : JsonDoc where
  width := some st.size.1
  height := some st.size.2
  tile_width := some st.tile_size.1
  tile_height := some st.tile_size.2
  selected_tile := some st.tile
  tile_image := some st.tile_image
  tile_data := some ⟨some st.dataStore.data⟩
  tile_sel := some ⟨some st.scale⟩

/-- Embeds `MainWindow.decode_from_JSON` together with the nested
`TileEd.decode_from_JSON` and `TileSelector.decode_from_JSON`, preserving
the order of the key reads and of the field assignments of the source.  A
missing key raises `KeyError`, modelled as `Except.error` carrying the state
the document holds at that moment: the assignments already executed remain.
`MainWindow.reset` and the two child `reset` calls only rewrite fields with
the values already assigned here (plus the pixmap, which is not part of the
modelled state), except that `TileEd.reset` rebuilds the undo store from the
decoded grid data, which is modelled at the `tile_data` step. -/
def MainWindow.decode_from_JSON (j : JsonDoc) (st : MainState) :
    Except MainState MainState :=
  match j.width with
  | none => .error st
  | some w =>
    match j.height with
    | none => .error st
    | some h =>
      let st1 : MainState := { st with size := (w, h) }
      match j.tile_width with
      | none => .error st1
      | some tw =>
        match j.tile_height with
        | none => .error st1
        | some th =>
          let st2 : MainState := { st1 with tile_size := (tw, th) }
          match j.selected_tile with
          | none => .error st2
          | some t =>
            let st3 : MainState := { st2 with tile := t }
            match j.tile_image with
            | none => .error st3
            | some img =>
              let st4 : MainState := { st3 with tile_image := img }
              match j.tile_data with
              | none => .error st4
              | some td =>
                match td.data with
                | none => .error st4
                | some d =>
                  let st5 : MainState := { st4 with dataStore := UndoRedo.init d }
                  match j.tile_sel with
                  | none => .error st5
                  | some ts =>
                    match ts.scale with
                    | none => .error st5
                    | some sc => .ok { st5 with scale := sc }

/-- Pointer events delivered to the `TileEd` widget, carrying the cell
coordinates already resolved from the pointer position. -/
inductive Event : Type where
  | press (x y : ℤ)
  | move (x y : ℤ)
  | release
  deriving Repr, DecidableEq

/-- The mutable state of the `TileEd` widget that the pointer handlers
touch: the `drawing` flag, the selected tile (`self.main.tile`), and the
undo store.  `checkpoints` is a ghost counter, not a source field: it is
incremented exactly where the source calls `self.data_store.create_copy()`,
so that the number of checkpoints taken can be stated. -/
structure EdState where
  drawing : Bool
  tile : ℤ
  hist : UndoRedo (List ℤ)
  checkpoints : ℕ
  deriving Repr, DecidableEq

/-- `self.set_tile(x, y, self.main.tile)` on the widget state: write the
selected tile through the current snapshot of the undo store; an
`IndexError` aborts the handler (`none`). -/
def EdState.paint (cols : ℤ) (st : EdState) (x y : ℤ) : Option EdState :=
  (TileEd.set_tile cols st.hist.data x y st.tile).map fun d =>
    { st with hist := st.hist.setData d }

/-- One pointer event of `TileEd`:
`mousePressEvent` sets `drawing`, calls `create_copy` (counted as one
checkpoint) and paints the pressed cell; `mouseMoveEvent` paints only while
`drawing` is set and never checkpoints; `mouseReleaseEvent` clears
`drawing`. -/
def EdState.step (cols : ℤ) (e : Event) (st : EdState) : Option EdState :=
  match e with
  | .press x y =>
    EdState.paint cols
      { st with
        drawing := true
        hist := st.hist.create_copy
        checkpoints := st.checkpoints + 1 } x y
  | .move x y =>
    if st.drawing then EdState.paint cols st x y else some st
  | .release => some { st with drawing := false }

/-- Run a list of pointer events in order, stopping at the first failing
handler. -/
def EdState.steps (cols : ℤ) (es : List Event) (st : EdState) : Option EdState :=
  match es with
  | [] => some st
  | e :: rest =>
    match EdState.step cols e st with
    | none => none
    | some st2 => EdState.steps cols rest st2

/-- Recognizes the move events of a drag gesture. -/
def Event.isMove : Event → Bool
  | .move _ _ => true
  | _ => false

/-- Claim C1: for every history store satisfying the store invariant, a
checkpoint (`create_copy`), then any mutation of the current snapshot, then
`undo`, leaves the current snapshot equal to the starting snapshot S0. -/
theorem UndoRedo.checkpoint_mutate_undo {α : Type} [Inhabited α]
    (u : UndoRedo α) (v : α) (h : u.index < u.store.length) :
    ((u.create_copy.setData v).undo).data = u.data := by
  simp only [create_copy, setData, undo, data]
  rw [if_pos (Nat.succ_pos _)]
  simp only [Nat.add_sub_cancel]
  rw [List.getD_eq_getElem?_getD, List.getD_eq_getElem?_getD,
    List.getElem?_set_ne (by omega),
    List.getElem?_append_left (by simp only [List.length_take]; omega),
    List.getElem?_take_of_lt (Nat.lt_succ_self _)]

/-- Witness for claim C1 at the one-snapshot store holding the grid `[5]`,
mutated to `[9]`. -/
theorem UndoRedo.checkpoint_mutate_undo_witness :
    (UndoRedo.init ([5] : List ℤ)).index < (UndoRedo.init ([5] : List ℤ)).store.length ∧
    ((((UndoRedo.init ([5] : List ℤ)).create_copy).setData [9]).undo).data
      = (UndoRedo.init ([5] : List ℤ)).data :=
  ⟨by decide, UndoRedo.checkpoint_mutate_undo (UndoRedo.init [5]) [9] (by decide)⟩

/-- Claim C7: checkpoint, mutate to S1, undo, checkpoint, mutate to S2 —
after this, `redo` is a no-op (the branch holding S1 was pruned by the
second checkpoint, so the current snapshot is the newest entry). -/
theorem UndoRedo.redo_noop_after_prune {α : Type} [Inhabited α]
    (u : UndoRedo α) (v1 v2 : α) (_h : u.index < u.store.length) :
    (((((u.create_copy).setData v1).undo).create_copy).setData v2).redo
      = ((((u.create_copy).setData v1).undo).create_copy).setData v2 := by
  simp only [create_copy, setData, undo, redo]
  rw [if_pos (Nat.succ_pos _)]
  simp only [Nat.add_sub_cancel]
  rw [if_neg]
  simp only [List.length_set, List.length_append, List.length_take,
    List.length_cons, List.length_nil]
  omega

/-- Witness for claim C7 at the one-snapshot store holding the grid `[0]`,
mutated first to `[1]` and, after the undo and second checkpoint, to
`[2]`. -/
theorem UndoRedo.redo_noop_after_prune_witness :
    (UndoRedo.init ([0] : List ℤ)).index < (UndoRedo.init ([0] : List ℤ)).store.length ∧
    ((((((UndoRedo.init ([0] : List ℤ)).create_copy).setData [1]).undo).create_copy).setData [2]).redo
      = (((((UndoRedo.init ([0] : List ℤ)).create_copy).setData [1]).undo).create_copy).setData [2] :=
  ⟨by decide, UndoRedo.redo_noop_after_prune (UndoRedo.init [0]) [1] [2] (by decide)⟩

/-- Claim C5, failing input: with a 4-column, 2-row atlas and 8 by 8 tiles,
the source maps tile 5 to pixel position (8, 16) because it divides the tile
index by the number of tile ROWS (`tilemap_size[1]`), while the claimed
formula — consistent with the row-major indexing of the inverse
`TileSelector.get_tile` — divides by the number of tile COLUMNS and yields
(8, 8). -/
theorem get_tile_map_coords_row_divisor_bug :
    TileSelector.get_tile_map_coords 4 2 8 8 5 = (8, 16) ∧
    tileToAtlasPosition_spec 4 8 8 5 = (8, 8) ∧
    ((8, 16) : ℕ × ℕ) ≠ (8, 8) := by
  decide

/-- Claim C2, failing input: with tilemapColumns = 4 (atlasWidth = 32,
tiles 8 by 8) and 2 tile rows, tile index 5 round-trips through the source
functions to 9, not 5; the round trip only holds when the atlas has as many
tile rows as columns, because of the divisor slip recorded for claim C5. -/
theorem atlas_round_trip_bug :
    atlas_round_trip 4 2 8 8 5 = 9 ∧ (9 : ℕ) ≠ 5 := by
  decide

/-- Claim C4, failing input: on a 4 by 4 grid, `get_tile` at x = 4 (out of
the claimed range [0, 4)) does not fail: the flat index 0 * 4 + 4 = 4 is in
range for the 16-element backing list, so the call succeeds and returns the
value 9 stored at cell (0, 1); `set_tile` at the same coordinates succeeds
as well.  The claim demands an `OutOfBounds` failure for any x outside
[0, columns). -/
theorem get_tile_out_of_bounds_succeeds :
    TileEd.get_tile 4 [0, 0, 0, 0, 9, 0, 0, 0, 0, 0, 0, 0, 0, 0, 0, 0] 4 0 = some 9 ∧
    (TileEd.set_tile 4 [0, 0, 0, 0, 9, 0, 0, 0, 0, 0, 0, 0, 0, 0, 0, 0] 4 0 7).isSome = true := by
  decide

/-- Claim C3, failing input: a JSON document carrying all keys except
`tile_data`.  Decoding it into an open 2 by 2 document raises `KeyError`
only after the grid size, tile size, selected tile and atlas reference have
already been overwritten, so the failed decode leaves the document mutated,
not untouched as the claim demands. -/
theorem decode_failure_mutates_document :
    MainWindow.decode_from_JSON
        ⟨some 4, some 4, some 8, some 8, some 0, some ("a.png"), none, some ⟨some 1⟩⟩
        ⟨(2, 2), (16, 16), 3, ("b.png"), ⟨0, [[1, 2, 3, 4]]⟩, 2⟩
      = .error ⟨(4, 4), (8, 8), 0, ("a.png"), ⟨0, [[1, 2, 3, 4]]⟩, 2⟩ ∧
    (⟨(4, 4), (8, 8), 0, ("a.png"), ⟨0, [[1, 2, 3, 4]]⟩, 2⟩ : MainState)
      ≠ ⟨(2, 2), (16, 16), 3, ("b.png"), ⟨0, [[1, 2, 3, 4]]⟩, 2⟩ := by
  refine ⟨rfl, ?_⟩
  decide

/-- Claim C8: decoding the encoding of any document succeeds and reproduces
its grid size, tile size, selected tile, atlas reference, current grid
contents and selector scale exactly, whatever document was open before; the
undo history is not reproduced — the store is rebuilt with the current
snapshot as its only entry, whose current contents are again those of the
encoded document. -/
theorem decode_encode_round_trip (d st : MainState) :
    MainWindow.decode_from_JSON (MainWindow.encode_to_JSON d) st
      = Except.ok
          { size := d.size
            tile_size := d.tile_size
            tile := d.tile
            tile_image := d.tile_image
            dataStore := UndoRedo.init d.dataStore.data
            scale := d.scale } ∧
    (UndoRedo.init d.dataStore.data).data = d.dataStore.data :=
  ⟨rfl, rfl⟩

/-- Claim C10: cell access validates only the flat index `y * cols + x`
against the backing list, with Python index semantics.  For a grid of
`c` columns and `r` rows (backing list of length `c * r`): any coordinate
pair whose flat index lies in `[-(c*r), c*r)` succeeds for both `get_tile`
and `set_tile`; in particular `get_tile` at `(c, y)` with `0 ≤ y < r - 1`
aliases cell `(0, y + 1)`, and a negative flat index wraps around and reads
from the end of the backing list. -/
theorem get_tile_flat_index_aliasing (c r : ℕ) (data : List ℤ)
    (hlen : data.length = c * r) :
    (∀ x y : ℤ, -(c * r : ℤ) ≤ y * c + x → y * c + x < (c * r : ℤ) →
      (TileEd.get_tile c data x y).isSome = true ∧
      ∀ v, (TileEd.set_tile c data x y v).isSome = true) ∧
    (∀ y : ℤ, 0 ≤ y → y < (r : ℤ) - 1 →
      TileEd.get_tile c data c y = TileEd.get_tile c data 0 (y + 1)) ∧
    (∀ x y : ℤ, -(c * r : ℤ) ≤ y * c + x → y * c + x < 0 →
      TileEd.get_tile c data x y
        = some (data.getD ((data.length : ℤ) + (y * c + x)).toNat 0)) := by
  refine ⟨fun x y h1 h2 => ?_, fun y _ _ => ?_, fun x y h1 h2 => ?_⟩
  · constructor
    · simp only [TileEd.get_tile, pyGet, pyIndex, hlen]
      split_ifs with hc
      all_goals simp_all
      all_goals omega
    · intro v
      simp only [TileEd.set_tile, pySet, pyIndex, hlen]
      split_ifs with hc
      all_goals simp_all
      all_goals omega
  · have hflat : y * (c : ℤ) + c = (y + 1) * c + 0 := by ring
    simp only [TileEd.get_tile, hflat]
  · simp only [TileEd.get_tile, pyGet, pyIndex, hlen]
    split_ifs with hc
    · rw [Option.map_some']
      congr 2
      omega
    · exfalso
      simp only [not_and, not_lt] at hc
      omega

/-- Witness for claim C10 on the 2 by 2 grid `[1, 2, 3, 4]`: accessing
x = 2 (one past the last column) in row 0 yields the same cell as (0, 1). -/
theorem get_tile_flat_index_aliasing_witness :
    ([1, 2, 3, 4] : List ℤ).length = 2 * 2 ∧
    TileEd.get_tile 2 [1, 2, 3, 4] 2 0 = TileEd.get_tile 2 [1, 2, 3, 4] 0 (0 + 1) :=
  ⟨by decide,
    (get_tile_flat_index_aliasing 2 2 [1, 2, 3, 4] (by decide)).2.1 0 (by decide) (by decide)⟩

/-- Claim C6, counterexample: at screen pixel (8, 0) with 16 by 16 tiles and
scale 1/2 (reachable through zoom-out), the source computes cell
floor(floor(8 / 16) / (1/2)) = 0, while the claimed formula
floor(8 / (16 * 1/2)) gives cell 1. -/
theorem screen_point_to_cell_formula_counterexample :
    screen_point_to_cell 8 0 16 16 (1 / 2) = (0, 0) ∧
    (⌊(8 : ℚ) / (16 * (1 / 2))⌋, ⌊(0 : ℚ) / (16 * (1 / 2))⌋) = ((1 : ℤ), (0 : ℤ)) := by
  constructor
  · show (⌊(⌊(8 : ℚ) / 16⌋ : ℚ) / (1 / 2)⌋, ⌊(⌊(0 : ℚ) / 16⌋ : ℚ) / (1 / 2)⌋) = (0, 0)
    norm_num
  · norm_num

/-- Rounding an exact rational down after dividing by a natural number is
the same as flooring first and then taking integer division. -/
lemma floor_div_natCast (a : ℚ) (n : ℕ) : ⌊a / (n : ℚ)⌋ = ⌊a⌋ / (n : ℤ) := by
  rcases Nat.eq_zero_or_pos n with h0 | hpos
  · subst h0
    simp
  · have hn : (0 : ℚ) < (n : ℚ) := by exact_mod_cast hpos
    have hne : (n : ℤ) ≠ 0 := by exact_mod_cast hpos.ne.symm
    rw [Int.floor_eq_iff]
    constructor
    · rw [le_div_iff₀ hn]
      have h1 : (⌊a⌋ / (n : ℤ)) * (n : ℤ) ≤ ⌊a⌋ := Int.ediv_mul_le ⌊a⌋ hne
      calc ((⌊a⌋ / (n : ℤ) : ℤ) : ℚ) * (n : ℚ) ≤ (⌊a⌋ : ℚ) := by exact_mod_cast h1
        _ ≤ a := Int.floor_le a
    · rw [div_lt_iff₀ hn]
      have h2 : ⌊a⌋ < (⌊a⌋ / (n : ℤ) + 1) * (n : ℤ) :=
        Int.lt_ediv_add_one_mul_self ⌊a⌋ (by exact_mod_cast hpos)
      calc a < (⌊a⌋ : ℚ) + 1 := Int.lt_floor_add_one a
        _ ≤ ((⌊a⌋ / (n : ℤ) + 1) * (n : ℤ) : ℤ) := by exact_mod_cast h2
        _ = ((⌊a⌋ / (n : ℤ) : ℤ) + 1) * (n : ℚ) := by push_cast; ring

/-- Claim C6 as amended: the source computes
cellX = floor(floor(screenX / tileWidth) / scale) in each axis; whenever the
scale is a positive integer, this agrees with the claimed single-division
formula floor(screenX / (tileWidth * scale)).  (At non-integer scales the
two differ; see the counterexample.) -/
theorem screen_point_to_cell_integer_scale (sx sy tile_w tile_h : ℚ) (n : ℕ)
    (_hn : 0 < n) :
    screen_point_to_cell sx sy tile_w tile_h (n : ℚ)
      = (⌊sx / (tile_w * n)⌋, ⌊sy / (tile_h * n)⌋) := by
  have key : ∀ a : ℚ, ⌊(⌊a⌋ : ℚ) / (n : ℚ)⌋ = ⌊a / (n : ℚ)⌋ := by
    intro a
    rw [floor_div_natCast, Int.floor_intCast, floor_div_natCast]
  simp only [screen_point_to_cell]
  rw [key, key]
  rw [div_div, div_div]

/-- Witness for the amended claim C6 at the tile boundary of the claim
sources: pixel (16, 0), 16 by 16 tiles, scale 1. -/
theorem screen_point_to_cell_integer_scale_witness :
    (0 : ℕ) < 1 ∧
    screen_point_to_cell 16 0 16 16 ((1 : ℕ) : ℚ)
      = (⌊(16 : ℚ) / (16 * ((1 : ℕ) : ℚ))⌋, ⌊(0 : ℚ) / (16 * ((1 : ℕ) : ℚ))⌋) :=
  ⟨by decide, screen_point_to_cell_integer_scale 16 0 16 16 1 (by decide)⟩

/-- Setting an element at position `i` does not change the first `i`
elements of a list. -/
lemma take_set_eq_take {α : Type} (l : List α) (i : ℕ) (d : α) :
    (l.set i d).take i = l.take i := by
  apply List.ext_getElem?
  intro k
  rw [List.getElem?_take, List.getElem?_take]
  split_ifs with hk
  · exact List.getElem?_set_ne (by omega)
  · rfl

/-- Running a concatenation of event lists runs the first list, then the
second from the state it reached. -/
lemma steps_append (cols : ℤ) (es1 es2 : List Event) (st : EdState) :
    EdState.steps cols (es1 ++ es2) st
      = match EdState.steps cols es1 st with
        | none => none
        | some st2 => EdState.steps cols es2 st2 := by
  induction es1 generalizing st with
  | nil => rfl
  | cons e rest ih =>
    simp only [List.cons_append, EdState.steps]
    cases EdState.step cols e st with
    | none => rfl
    | some st2 => exact ih st2

/-- A press handler in one step: checkpoint, then paint the pressed cell
through the fresh copy. -/
lemma step_press_eq (cols x y : ℤ) (st : EdState) :
    EdState.step cols (Event.press x y) st
      = (TileEd.set_tile cols st.hist.create_copy.data x y st.tile).map
          (fun d => ⟨true, st.tile, st.hist.create_copy.setData d, st.checkpoints + 1⟩) :=
  rfl

/-- Move events never checkpoint: a run of move events preserves the
drawing flag, the checkpoint count, the history index, the store length,
and every store entry below the current index. -/
lemma steps_moves_invariant (cols : ℤ) (es : List Event) (st fin : EdState)
    (hmoves : ∀ e ∈ es, e.isMove = true)
    (hrun : EdState.steps cols es st = some fin) :
    fin.drawing = st.drawing ∧ fin.checkpoints = st.checkpoints ∧
    fin.hist.index = st.hist.index ∧
    fin.hist.store.length = st.hist.store.length ∧
    fin.hist.store.take st.hist.index = st.hist.store.take st.hist.index := by
  induction es generalizing st with
  | nil =>
    simp only [EdState.steps, Option.some.injEq] at hrun
    subst hrun
    exact ⟨rfl, rfl, rfl, rfl, rfl⟩
  | cons e rest ih =>
    have hm := hmoves e (List.mem_cons_self e rest)
    have hrest : ∀ e2 ∈ rest, e2.isMove = true :=
      fun e2 he2 => hmoves e2 (List.mem_cons_of_mem e he2)
    cases e with
    | press x y => simp [Event.isMove] at hm
    | release => simp [Event.isMove] at hm
    | move x y =>
      simp only [EdState.steps] at hrun
      cases hd : st.drawing with
      | false =>
        rw [EdState.step] at hrun
        simp only [hd, Bool.false_eq_true, if_false] at hrun
        have h := ih st hrest hrun
        rw [hd] at h
        exact h
      | true =>
        rw [EdState.step] at hrun
        simp only [hd, if_true] at hrun
        cases hset : TileEd.set_tile cols st.hist.data x y st.tile with
        | none => rw [EdState.paint, hset] at hrun; simp at hrun
        | some d =>
          rw [EdState.paint, hset] at hrun
          simp only [Option.map_some'] at hrun
          have h2 := ih _ hrest hrun
          dsimp only [UndoRedo.setData] at h2
          refine ⟨h2.1.trans hd, h2.2.1, h2.2.2.1, ?_, ?_⟩
          · rw [h2.2.2.2.1]
            exact List.length_set st.hist.store st.hist.index d
          · rw [h2.2.2.2.2]
            exact take_set_eq_take st.hist.store st.hist.index d

/-- Claim C9 as amended: a drag-paint gesture — press, any number of move
events, release — records exactly one checkpoint, at the press (the ghost
counter grows by exactly one), and one undo afterwards restores the snapshot
current before the gesture; the history length grows by exactly one when the
gesture starts with the current snapshot at the newest history entry (after
an undo, the press first prunes the entries above the index, so the length
can also shrink — see the counterexample). -/
theorem stroke_single_checkpoint (cols px py : ℤ) (moves : List Event)
    (st fin : EdState)
    (hmoves : ∀ e ∈ moves, e.isMove = true)
    (hinv : st.hist.index < st.hist.store.length)
    (hrun : EdState.steps cols (Event.press px py :: (moves ++ [Event.release])) st
      = some fin) :
    fin.checkpoints = st.checkpoints + 1 ∧
    fin.hist.undo.data = st.hist.data ∧
    (st.hist.index + 1 = st.hist.store.length →
      fin.hist.store.length = st.hist.store.length + 1) := by
  rw [EdState.steps, step_press_eq] at hrun
  cases hset : TileEd.set_tile cols st.hist.create_copy.data px py st.tile with
  | none => rw [hset] at hrun; simp at hrun
  | some d =>
    rw [hset] at hrun
    simp only [Option.map_some'] at hrun
    rw [steps_append] at hrun
    cases hmid : EdState.steps cols moves
        ⟨true, st.tile, st.hist.create_copy.setData d, st.checkpoints + 1⟩ with
    | none => rw [hmid] at hrun; simp at hrun
    | some st3 =>
      rw [hmid] at hrun
      simp only [EdState.steps, EdState.step, Option.some.injEq] at hrun
      subst hrun
      have h3 := steps_moves_invariant cols moves _ st3 hmoves hmid
      dsimp only [UndoRedo.setData, UndoRedo.create_copy] at h3
      obtain ⟨-, hck, hidx, hlen2, htake⟩ := h3
      have hminlen : (st.hist.store.take (st.hist.index + 1)).length = st.hist.index + 1 := by
        simp only [List.length_take]
        omega
      have hlen3 : st3.hist.store.length = st.hist.index + 2 := by
        rw [hlen2]
        simp only [List.length_set, List.length_append, List.length_take,
          List.length_cons, List.length_nil]
        omega
      have htake2 : List.take (st.hist.index + 1) st3.hist.store
          = List.take (st.hist.index + 1) st.hist.store := by
        rw [htake, take_set_eq_take,
          List.take_append_of_le_length (le_of_eq hminlen.symm),
          List.take_take]
        simp
      refine ⟨hck, ?_, ?_⟩
      · dsimp only [UndoRedo.undo, UndoRedo.data]
        simp only [hidx]
        rw [if_pos (Nat.succ_pos _)]
        simp only [Nat.add_sub_cancel]
        rw [List.getD_eq_getElem?_getD, List.getD_eq_getElem?_getD,
          ← List.getElem?_take_of_lt (l := st3.hist.store) (Nat.lt_succ_self st.hist.index),
          htake2, List.getElem?_take_of_lt (Nat.lt_succ_self st.hist.index)]
      · intro hL
        dsimp only
        rw [hlen3]
        omega

/-- Witness for the amended claim C9: a press-move-release stroke painting
cell (0, 0) with tile 7 on a fresh one-cell document takes exactly one
checkpoint and one undo restores the pre-stroke grid. -/
theorem stroke_single_checkpoint_witness :
    (∀ e ∈ [Event.move 0 0], e.isMove = true) ∧
    (⟨false, 7, ⟨0, [[0]]⟩, 0⟩ : EdState).hist.index
      < (⟨false, 7, ⟨0, [[0]]⟩, 0⟩ : EdState).hist.store.length ∧
    EdState.steps 1 (Event.press 0 0 :: ([Event.move 0 0] ++ [Event.release]))
        ⟨false, 7, ⟨0, [[0]]⟩, 0⟩ = some ⟨false, 7, ⟨1, [[0], [7]]⟩, 1⟩ ∧
    ((⟨false, 7, ⟨1, [[0], [7]]⟩, 1⟩ : EdState).checkpoints
        = (⟨false, 7, ⟨0, [[0]]⟩, 0⟩ : EdState).checkpoints + 1 ∧
      (⟨false, 7, ⟨1, [[0], [7]]⟩, 1⟩ : EdState).hist.undo.data
        = (⟨false, 7, ⟨0, [[0]]⟩, 0⟩ : EdState).hist.data ∧
      ((⟨false, 7, ⟨0, [[0]]⟩, 0⟩ : EdState).hist.index + 1
          = (⟨false, 7, ⟨0, [[0]]⟩, 0⟩ : EdState).hist.store.length →
        (⟨false, 7, ⟨1, [[0], [7]]⟩, 1⟩ : EdState).hist.store.length
          = (⟨false, 7, ⟨0, [[0]]⟩, 0⟩ : EdState).hist.store.length + 1)) :=
  ⟨by decide, by decide, by decide,
    stroke_single_checkpoint 1 0 0 [Event.move 0 0] ⟨false, 7, ⟨0, [[0]]⟩, 0⟩
      ⟨false, 7, ⟨1, [[0], [7]]⟩, 1⟩ (by decide) (by decide) (by decide)⟩

/-- Claim C9, counterexample to the history-length part: starting from a
store with a pending redo entry (index 0 of two entries, the state after one
undo), a press-release stroke prunes that entry before appending the copy,
so the history length stays 2 instead of growing to 3.  The checkpoint
count still grows by exactly one. -/
theorem stroke_length_growth_counterexample :
    EdState.steps 1 [Event.press 0 0, Event.release]
        ⟨false, 7, ⟨0, [[0], [1]]⟩, 0⟩ = some ⟨false, 7, ⟨1, [[0], [7]]⟩, 1⟩ ∧
    (⟨false, 7, ⟨1, [[0], [7]]⟩, 1⟩ : EdState).hist.store.length
      ≠ (⟨false, 7, ⟨0, [[0], [1]]⟩, 0⟩ : EdState).hist.store.length + 1 := by
  decide
